import Mathlib

set_option maxRecDepth 8000

/-!
Verification of the persistence-and-coordination core of the
non-Steam-game shortcut adder (`src/main.py`): identifier generation,
catalogue repository operations, the atomic write protocol and the
Steam process coordinator, shallowly embedded as executable Lean
definitions with theorems about each specified property.
-/

namespace NonSteam

/-! ## Identifier generator (`generate_appid`, main.py lines 110-114)

`zlib.crc32` is the standard reflected CRC-32 (polynomial `0xEDB88320`,
initial value `0xFFFFFFFF`, final XOR `0xFFFFFFFF`) over a byte string;
`str.encode("utf-8")` is standard UTF-8. Both are embedded here over
`List Nat` byte lists. -/

def crc32Poly : Nat := 0xEDB88320

def crc32Round (c : Nat) : Nat :=
  if c % 2 = 1 then (c / 2) ^^^ crc32Poly else c / 2

def crc32UpdateByte (c b : Nat) : Nat :=
  Nat.iterate crc32Round 8 (c ^^^ b)

def crc32 (bytes : List Nat) : Nat :=
  (bytes.foldl crc32UpdateByte 0xFFFFFFFF) ^^^ 0xFFFFFFFF

/-- Standard UTF-8 encoding of one scalar value (what Python's
`"...".encode("utf-8")` produces per character). -/
def utf8Bytes (c : Char) : List Nat :=
  if c.toNat < 0x80 then [c.toNat]
  else if c.toNat < 0x800 then [0xC0 ||| (c.toNat >>> 6), 0x80 ||| (c.toNat &&& 0x3F)]
  else if c.toNat < 0x10000 then
    [0xE0 ||| (c.toNat >>> 12), 0x80 ||| ((c.toNat >>> 6) &&& 0x3F), 0x80 ||| (c.toNat &&& 0x3F)]
  else
    [0xF0 ||| (c.toNat >>> 18), 0x80 ||| ((c.toNat >>> 12) &&& 0x3F),
     0x80 ||| ((c.toNat >>> 6) &&& 0x3F), 0x80 ||| (c.toNat &&& 0x3F)]

def strUtf8 (s : String) : List Nat := s.data.flatMap utf8Bytes

/-- `generate_appid(game_name, exe_path)` from main.py lines 110-114:
`str(zlib.crc32((exe_path + game_name).encode("utf-8")) | 0x80000000)`.
Python 3's `str` of a nonnegative int is `Nat.repr`. -/
def generate_appid (game_name exe_path : String) : String :=
  Nat.repr (crc32 (strUtf8 (exe_path ++ game_name)) ||| 0x80000000)

/-! ## Catalogue documents (binary VDF value tree)

A decoded `shortcuts.vdf` is a Python dict: string keys mapping to
strings, integers or nested dicts, in insertion order. Embedded as an
association list; `lookupKey` is dict membership/`get`, `setKey` is
dict item assignment (replace in place if the key exists, else append,
exactly Python's insertion-order semantics). -/

inductive VdfVal where
  | str (s : String)
  | int (n : Int)
  | map (entries : List (String × VdfVal))

abbrev Doc := List (String × VdfVal)

def shortcutsKey : String := "shortcuts"

def lookupKey (k : String) : Doc → Option VdfVal
  | [] => none
  | (k2, v) :: rest => if k2 = k then some v else lookupKey k rest

def setKey (k : String) (v : VdfVal) : Doc → Doc
  | [] => [(k, v)]
  | (k2, v2) :: rest => if k2 = k then (k2, v) :: rest else (k2, v2) :: setKey k v rest

/-- Decode outcomes a call of `load_shortcuts_binary` can face: the file
is absent, or `vdf.binary_load` returns a dict, or it raises. -/
inductive LoadInput where
  | missing
  | decodes (d : Doc)
  | decodeFails (msg : String)

/-- `load_shortcuts_binary` (main.py lines 151-164): missing file yields a
fresh `{"shortcuts": {}}`; a successful decode is returned with
`setdefault("shortcuts", {})` applied when the key is absent (Python
`setdefault` appends the new key at the end); a decode exception is
re-raised (`raise`). -/
def load_shortcuts_binary : LoadInput → Except String Doc
  | LoadInput.missing => Except.ok [(shortcutsKey, VdfVal.map [])]
  | LoadInput.decodes d =>
      Except.ok (if (lookupKey shortcutsKey d).isNone
                 then d ++ [(shortcutsKey, VdfVal.map [])] else d)
  | LoadInput.decodeFails msg => Except.error msg

/-- Entry insertion (main.py lines 509-510):
`idx = len(shortcuts.get("shortcuts", {}))` followed by
`shortcuts.setdefault("shortcuts", {})[str(idx)] = entry`.
When the value at `"shortcuts"` is a string or an int the Python code
raises (`TypeError` from item assignment on `str`, or from `len` on
`int`), modelled as `none`. -/
def add_entry (doc : Doc) (entry : VdfVal) : Option Doc :=
  match lookupKey shortcutsKey doc with
  | some (VdfVal.map m) =>
      some (setKey shortcutsKey (VdfVal.map (setKey (Nat.repr m.length) entry m)) doc)
  | some _ => none
  | none => some (setKey shortcutsKey (VdfVal.map (setKey (Nat.repr 0) entry [])) doc)

/-- Folding `add_entry` over a list of entries (repeated invocations of
the insertion step). -/
def append_all (doc : Doc) : List VdfVal → Option Doc
  | [] => some doc
  | e :: es =>
      match add_entry doc e with
      | some d => append_all d es
      | none => none

/-- The `entry` dict literal built by `add_non_steam_game`
(main.py lines 494-507), field for field, in source order. -/
def make_entry (app_id game_name exe game_path launch_options : String) : VdfVal :=
  VdfVal.map [
    ("appid", VdfVal.str app_id),
    ("appname", VdfVal.str game_name),
    ("exe", VdfVal.str ("\"" ++ exe ++ "\"")),
    ("StartDir", VdfVal.str ("\"" ++ game_path ++ "\"")),
    ("LaunchOptions", VdfVal.str launch_options),
    ("IsHidden", VdfVal.int 0),
    ("AllowDesktopConfig", VdfVal.int 1),
    ("OpenVR", VdfVal.int 0),
    ("Devkit", VdfVal.int 0),
    ("DevkitGameID", VdfVal.str ""),
    ("LastPlayTime", VdfVal.int 0),
    ("tags", VdfVal.map [])]

/-- A fresh catalogue document, `{"shortcuts": {}}`. -/
def emptyDoc : Doc := [(shortcutsKey, VdfVal.map [])]

/-- The catalogue-document part of `add_non_steam_game`
(main.py lines 488-510): load the existing file, fall back to a fresh
`{"shortcuts": {}}` when loading raises, then insert the entry. -/
def add_game_doc (loadRes : LoadInput) (entry : VdfVal) : Option Doc :=
  let doc :=
    match load_shortcuts_binary loadRes with
    | Except.ok d => d
    | Except.error _ => [(shortcutsKey, VdfVal.map [])]
  add_entry doc entry

/-! ## Atomic persistence writer (`atomic_write_file_with_vdf`,
main.py lines 117-148)

The relevant filesystem state: the bytes at the canonical path, the
temporary file, and the sibling backup directory's contents. The
writer callable either completes with the bytes it wrote, or raises
after writing some prefix. -/

structure FileSys where
  canonical : Option (List Nat)
  tmp : Option (List Nat)
  backups : List (String × List Nat)

inductive WriterResult where
  | ok (bytes : List Nat)
  | raisesAfter (msg : String) (written : List Nat)

/-- Backup file name: `f"{path.name}.bak.{timestamp}"` (line 127). -/
def bakName (fileName timestamp : String) : String :=
  fileName ++ ".bak." ++ timestamp

/-- `atomic_write_file_with_vdf` (main.py lines 117-148): optional
backup of the existing canonical file into the sibling backup directory
(failure only logged, line 131-132); temp file created in the same
directory; `write_callable` populates it; on an exception the temp file
is unlinked and the exception re-raised (lines 140-146); on success
`tmp_path.replace(path)` atomically renames over the canonical path. -/
def atomic_write_file_with_vdf (fs : FileSys) (fileName timestamp : String)
    (backupOk : Bool) (writer : WriterResult) : FileSys × Option String :=
  let fs1 :=
    match fs.canonical with
    | some bytes =>
        if backupOk
        then { fs with backups := fs.backups ++ [(bakName fileName timestamp, bytes)] }
        else fs
    | none => fs
  let fs2 := { fs1 with tmp := some ([] : List Nat) }
  match writer with
  | WriterResult.raisesAfter msg written =>
      let fs3 := { fs2 with tmp := some written }
      ({ fs3 with tmp := none }, some msg)
  | WriterResult.ok bytes =>
      let fs3 := { fs2 with tmp := some bytes }
      ({ fs3 with tmp := none, canonical := some bytes }, none)

/-! ## Process coordinator (main.py lines 197-329)

Variants are the strings `detect_steam_variant` returns. Each
subprocess invocation is modelled by its outcome: `Except.error` when
the call itself raises (e.g. the command binary is missing), otherwise
the captured output / a unit value. -/

def windowsV : String := "windows"

def linuxFlatpakV : String := "linux_flatpak"

def linuxNativeV : String := "linux_native"

def darwinNativeV : String := "darwin_native"

def unknownV : String := "unknown"

structure RunOut where
  stdout : String
  returncode : Int

def steamExeName : String := "steam.exe"

def startsWithChars : List Char → List Char → Bool
  | [], _ => true
  | _ :: _, [] => false
  | a :: as, b :: bs => a == b && startsWithChars as bs

def charsContain (needle : List Char) : List Char → Bool
  | [] => needle.isEmpty
  | b :: bs => startsWithChars needle (b :: bs) || charsContain needle bs

/-- Python's `needle in hay` substring test. -/
def strContainsSub (hay needle : String) : Bool :=
  charsContain needle.data hay.data

/-- `is_steam_running` (main.py lines 232-245): the whole body is inside
`try/except: return False`. Windows checks `"steam.exe" in
out.stdout.lower()`; every other variant (including `"unknown"`) checks
the `pgrep` return code. -/
def is_steam_running (variant : String) (probe : Except String RunOut) : Bool :=
  match probe with
  | Except.error _ => false
  | Except.ok out =>
      if variant = windowsV then strContainsSub out.stdout.toLower steamExeName
      else out.returncode == 0

def exceptOk : Except String Unit → Bool
  | Except.ok _ => true
  | Except.error _ => false

/-- `stop_steam` (main.py lines 248-263): `try/except: return False`
around per-variant kill commands (`check=False`, so only the spawn
itself can raise); flatpak issues two commands; unrecognised variants
fall through to `return False`. -/
def stop_steam (variant : String) (r1 r2 : Except String Unit) : Bool :=
  if variant = windowsV then exceptOk r1
  else if variant = linuxFlatpakV then
    match r1 with
    | Except.ok _ => exceptOk r2
    | Except.error _ => false
  else if variant = linuxNativeV ∨ variant = darwinNativeV then exceptOk r1
  else false

structure StartEnv where
  exe1 : Bool
  exe2 : Bool
  exe3 : Bool
  popenMain : Except String Unit
  popenShell : Except String Unit
  whichSteam : Option String
  localShExists : Bool

/-- `start_steam` (main.py lines 266-303): windows launches the first
existing candidate executable (one `Popen`, modelled by `popenMain`) or
falls back to a shell `start` (its own `try/except: return False`);
linux native launches `shutil.which("steam") or shutil.which("steamcmd")`
or the local `steam.sh`; unrecognised variants return `False`. Any
`Popen` exception is caught and yields `False`. -/
def start_steam (variant : String) (env : StartEnv) : Bool :=
  if variant = windowsV then
    if env.exe1 || env.exe2 || env.exe3 then exceptOk env.popenMain
    else exceptOk env.popenShell
  else if variant = linuxFlatpakV then exceptOk env.popenMain
  else if variant = linuxNativeV then
    match env.whichSteam with
    | some _ => exceptOk env.popenMain
    | none => if env.localShExists then exceptOk env.popenMain else false
  else if variant = darwinNativeV then exceptOk env.popenMain
  else false

structure CallTrace where
  stopCalls : Nat
  startCalls : Nat
  sleepsMs : List Nat

/-- `time.sleep(1.5)` between stop and start (line 325), in ms. -/
def settleDelayMs : Nat := 1500

/-- `restart_steam_if_running` (main.py lines 306-329). `variant` is the
result of `detect_steam_variant()`; `probe` feeds the inlined
`is_steam_running` call; the prompt is taken only when
`prompt_before_restart and sys.stdin.isatty()`, and an answer outside
`("y", "yes")` returns `(variant, False)` without touching the process.
Otherwise `stop_steam`, the settle sleep, `start_steam`, and
`performed = stopped or started`. The trace records how many stop/start
calls were issued and the sleeps taken. -/
def restart_steam_if_running (variant : String) (probe : Except String RunOut)
    (prompt_before_restart allow_restart : Bool) (stdinTty userAccepts : Bool)
    (r1 r2 : Except String Unit) (env : StartEnv) : (String × Bool) × CallTrace :=
  let running := is_steam_running variant probe
  if !running then ((variant, false), ⟨0, 0, []⟩)
  else if !allow_restart then ((variant, false), ⟨0, 0, []⟩)
  else if prompt_before_restart && stdinTty && !userAccepts then
    ((variant, false), ⟨0, 0, []⟩)
  else
    let stopped := stop_steam variant r1 r2
    let started := start_steam variant env
    ((variant, stopped || started), ⟨1, 1, [settleDelayMs]⟩)

/-- The condition under which the spec (§4.5) classifies the restart as
disallowed: the `allow_restart` flag is cleared, or the interactive
confirmation is requested, available, and declined ("treated identically
to restart disallowed"). -/
def restartDisallowed (prompt_before_restart allow_restart stdinTty userAccepts : Bool) : Bool :=
  !allow_restart || (prompt_before_restart && stdinTty && !userAccepts)

/-! ## Helper lemmas -/

/-- Value of a decimal digit string read left to right, starting from `a`. -/
def decValFrom (a : Nat) (l : List Char) : Nat :=
  l.foldl (fun x c => 10 * x + (c.toNat - 48)) a

theorem decValFrom_cons (a : Nat) (c : Char) (l : List Char) :
    decValFrom a (c :: l) = decValFrom (10 * a + (c.toNat - 48)) l := rfl

theorem digitChar_val {d : Nat} (h : d < 10) : (Nat.digitChar d).toNat - 48 = d := by
  interval_cases d <;> rfl

theorem toDigitsCore_val (fuel : Nat) : ∀ (n : Nat) (ds : List Char), n < fuel →
    decValFrom 0 (Nat.toDigitsCore 10 fuel n ds) = decValFrom n ds := by
  induction fuel with
  | zero => intro n ds h; omega
  | succ f ih =>
    intro n ds h
    rw [Nat.toDigitsCore]
    by_cases h10 : n / 10 = 0
    · simp only [h10, if_pos, reduceIte]
      rw [decValFrom_cons, digitChar_val (Nat.mod_lt n (by omega))]
      congr 1
      omega
    · simp only [h10, reduceIte]
      rw [ih (n / 10) _ (by omega)]
      rw [decValFrom_cons, digitChar_val (Nat.mod_lt n (by omega))]
      congr 1
      omega

theorem repr_val (n : Nat) : decValFrom 0 (Nat.repr n).data = n := by
  have h := toDigitsCore_val (n + 1) n [] (by omega)
  simpa [Nat.repr, Nat.toDigits, List.asString, decValFrom] using h

theorem natRepr_injective : Function.Injective Nat.repr := by
  intro a b h
  have ha := repr_val a
  have hb := repr_val b
  rw [h] at ha
  omega

theorem lookupKey_setKey_self (k : String) (v : VdfVal) :
    ∀ l : Doc, lookupKey k (setKey k v l) = some v := by
  intro l
  induction l with
  | nil => simp [setKey, lookupKey]
  | cons p rest ih =>
    obtain ⟨k2, v2⟩ := p
    by_cases h : k2 = k
    · simp [setKey, lookupKey, h]
    · simp [setKey, lookupKey, h, ih]

theorem setKey_eq_append (k : String) (v : VdfVal) :
    ∀ l : Doc, k ∉ l.map Prod.fst → setKey k v l = l ++ [(k, v)] := by
  intro l
  induction l with
  | nil => intro _; rfl
  | cons p rest ih =>
    obtain ⟨k2, v2⟩ := p
    intro h
    simp only [List.map_cons, List.mem_cons] at h
    push_neg at h
    have hne : ¬k2 = k := fun hh => h.1 hh.symm
    simp [setKey, hne, ih h.2]

theorem lookupKey_append_self (k : String) (v : VdfVal) :
    ∀ l : Doc, lookupKey k l = none → lookupKey k (l ++ [(k, v)]) = some v := by
  intro l
  induction l with
  | nil => intro _; simp [lookupKey]
  | cons p rest ih =>
    obtain ⟨k2, v2⟩ := p
    intro h
    by_cases hk : k2 = k
    · simp [lookupKey, hk] at h
    · simp only [lookupKey, hk, reduceIte] at h ⊢
      simpa [List.cons_append, lookupKey, hk] using ih h

theorem repr_length_notMem (m : List (String × VdfVal))
    (h : m.map Prod.fst = (List.range m.length).map Nat.repr) :
    Nat.repr m.length ∉ m.map Prod.fst := by
  rw [h]
  intro hmem
  obtain ⟨i, hi, hrepr⟩ := List.mem_map.mp hmem
  have h1 := natRepr_injective hrepr
  have h2 := List.mem_range.mp hi
  omega

theorem append_all_keys (es : List VdfVal) :
    ∀ (doc : Doc) (m : List (String × VdfVal)),
      lookupKey shortcutsKey doc = some (VdfVal.map m) →
      m.map Prod.fst = (List.range m.length).map Nat.repr →
      ∃ d m2, append_all doc es = some d ∧
        lookupKey shortcutsKey d = some (VdfVal.map m2) ∧
        m2.length = m.length + es.length ∧
        m2.map Prod.fst = (List.range m2.length).map Nat.repr := by
  induction es with
  | nil =>
    intro doc m h1 h2
    exact ⟨doc, m, rfl, h1, by simp, h2⟩
  | cons e es ih =>
    intro doc m h1 h2
    have hnot := repr_length_notMem m h2
    have hset : setKey (Nat.repr m.length) e m = m ++ [(Nat.repr m.length, e)] :=
      setKey_eq_append _ _ m hnot
    have hadd : add_entry doc e =
        some (setKey shortcutsKey (VdfVal.map (m ++ [(Nat.repr m.length, e)])) doc) := by
      simp [add_entry, h1, hset]
    have h1' : lookupKey shortcutsKey
          (setKey shortcutsKey (VdfVal.map (m ++ [(Nat.repr m.length, e)])) doc) =
        some (VdfVal.map (m ++ [(Nat.repr m.length, e)])) :=
      lookupKey_setKey_self _ _ doc
    have h2' : (m ++ [(Nat.repr m.length, e)]).map Prod.fst =
        (List.range (m ++ [(Nat.repr m.length, e)]).length).map Nat.repr := by
      simp [List.range_succ, h2]
    obtain ⟨d, m2, ha, hb, hc, hd⟩ := ih _ _ h1' h2'
    refine ⟨d, m2, ?_, hb, ?_, hd⟩
    · rw [append_all, hadd]
      exact ha
    · simp only [List.length_cons]
      simp only [List.length_append, List.length_cons, List.length_nil] at hc
      omega

theorem strUtf8_append (a b : String) : strUtf8 (a ++ b) = strUtf8 a ++ strUtf8 b := by
  simp [strUtf8, String.data_append, List.flatMap_append]

theorem shiftRight_le_self (n k : Nat) : n >>> k ≤ n := by
  rw [Nat.shiftRight_eq_div_pow]
  exact Nat.div_le_self n (2 ^ k)

theorem utf8Bytes_lt (c : Char) : ∀ b ∈ utf8Bytes c, b < 2 ^ 32 := by
  intro b hb
  have hn : c.toNat < 2 ^ 32 := UInt32.toNat_lt c.val
  have hsh : ∀ k : Nat, c.toNat >>> k < 2 ^ 32 :=
    fun k => Nat.lt_of_le_of_lt (shiftRight_le_self c.toNat k) hn
  have hand : ∀ x : Nat, x &&& 0x3F < 2 ^ 32 :=
    fun x => Nat.lt_of_le_of_lt Nat.and_le_right (by norm_num)
  unfold utf8Bytes at hb
  split at hb
  · simp at hb
    omega
  · split at hb
    · simp at hb
      rcases hb with hb | hb <;> subst hb
      · exact Nat.or_lt_two_pow (by norm_num) (hsh 6)
      · exact Nat.or_lt_two_pow (by norm_num) (hand _)
    · split at hb
      · simp at hb
        rcases hb with hb | hb | hb <;> subst hb
        · exact Nat.or_lt_two_pow (by norm_num) (hsh 12)
        · exact Nat.or_lt_two_pow (by norm_num) (hand _)
        · exact Nat.or_lt_two_pow (by norm_num) (hand _)
      · simp at hb
        rcases hb with hb | hb | hb | hb <;> subst hb
        · exact Nat.or_lt_two_pow (by norm_num) (hsh 18)
        · exact Nat.or_lt_two_pow (by norm_num) (hand _)
        · exact Nat.or_lt_two_pow (by norm_num) (hand _)
        · exact Nat.or_lt_two_pow (by norm_num) (hand _)

theorem strUtf8_lt (s : String) : ∀ b ∈ strUtf8 s, b < 2 ^ 32 := by
  intro b hb
  simp only [strUtf8, List.mem_flatMap] at hb
  obtain ⟨c, _, hc⟩ := hb
  exact utf8Bytes_lt c b hc

theorem crc32Round_lt {c : Nat} (h : c < 2 ^ 32) : crc32Round c < 2 ^ 32 := by
  unfold crc32Round
  split
  · exact Nat.xor_lt_two_pow (by omega) (by norm_num [crc32Poly])
  · omega

theorem iterate_crc32Round_lt (k : Nat) : ∀ {c : Nat}, c < 2 ^ 32 →
    Nat.iterate crc32Round k c < 2 ^ 32 := by
  induction k with
  | zero => intro c h; simpa using h
  | succ n ih =>
    intro c h
    rw [Function.iterate_succ_apply]
    exact ih (crc32Round_lt h)

theorem crc32UpdateByte_lt {c b : Nat} (hc : c < 2 ^ 32) (hb : b < 2 ^ 32) :
    crc32UpdateByte c b < 2 ^ 32 :=
  iterate_crc32Round_lt 8 (Nat.xor_lt_two_pow hc hb)

theorem foldl_crc32_lt : ∀ (l : List Nat) (c : Nat), c < 2 ^ 32 → (∀ b ∈ l, b < 2 ^ 32) →
    l.foldl crc32UpdateByte c < 2 ^ 32 := by
  intro l
  induction l with
  | nil => intro c h _; simpa using h
  | cons b bs ih =>
    intro c h hall
    rw [List.foldl_cons]
    exact ih _ (crc32UpdateByte_lt h (hall b (by simp))) (fun x hx => hall x (by simp [hx]))

theorem crc32_lt {bytes : List Nat} (h : ∀ b ∈ bytes, b < 2 ^ 32) : crc32 bytes < 2 ^ 32 :=
  Nat.xor_lt_two_pow (foldl_crc32_lt bytes _ (by norm_num) h) (by norm_num)

theorem le_or_sign (x : Nat) : 0x80000000 ≤ x ||| 0x80000000 := by
  have h : Nat.testBit (x ||| 0x80000000) 31 = true := by
    rw [Nat.testBit_or]
    simp [show Nat.testBit 0x80000000 31 = true by decide]
  have h2 := Nat.testBit_implies_ge h
  norm_num at h2 ⊢
  omega

theorem sign_or_lt (x : Nat) (h : x < 2 ^ 32) : x ||| 0x80000000 < 2 ^ 32 :=
  Nat.or_lt_two_pow h (by norm_num)

/-- Sanity anchor for the CRC-32 embedding: the standard zlib check
vector, `crc32(b"123456789") == 0xCBF43926`. -/
theorem crc32_check_vector : crc32 [49, 50, 51, 52, 53, 54, 55, 56, 57] = 0xCBF43926 := by
  decide

theorem contiguous_keys (es : List VdfVal) :
    ∃ d m2, append_all emptyDoc es = some d ∧
      lookupKey shortcutsKey d = some (VdfVal.map m2) ∧
      m2.length = es.length ∧
      m2.map Prod.fst = (List.range es.length).map Nat.repr := by
  obtain ⟨d, m2, ha, hb, hc, hd⟩ :=
    append_all_keys es emptyDoc [] (by simp [emptyDoc, lookupKey]) (by simp)
  refine ⟨d, m2, ha, hb, by simpa using hc, ?_⟩
  have hlen : m2.length = es.length := by simpa using hc
  simpa [hlen] using hd

def otherKey : String := "other"

/-- The entry value `add_non_steam_game` inserts: the dict literal of
lines 494-507 with `app_id = generate_appid(game_name, exe)` (line 476). -/
def game_entry (game_name exe game_path launch_options : String) : VdfVal :=
  make_entry (generate_appid game_name exe) game_name exe game_path launch_options

def mapEntries : VdfVal → List (String × VdfVal)
  | VdfVal.map l => l
  | _ => []

/-! ## Claim theorems -/

/-- C1: if the writer callable raises while populating the temporary
file, `atomic_write_file_with_vdf` deletes the temporary file, re-raises
the exception, and the byte content at the canonical path after the
failed operation equals its content immediately before the operation
began — no partially written catalogue is observable at the canonical
path. -/
theorem C1_atomic_write_failure_preserves_canonical
    (fs : FileSys) (fileName timestamp : String) (backupOk : Bool)
    (msg : String) (written : List Nat) :
    (atomic_write_file_with_vdf fs fileName timestamp backupOk
        (WriterResult.raisesAfter msg written)).2 = some msg ∧
    (atomic_write_file_with_vdf fs fileName timestamp backupOk
        (WriterResult.raisesAfter msg written)).1.canonical = fs.canonical ∧
    (atomic_write_file_with_vdf fs fileName timestamp backupOk
        (WriterResult.raisesAfter msg written)).1.tmp = none := by
  obtain ⟨can, tmpf, baks⟩ := fs
  cases can <;> cases backupOk <;> simp [atomic_write_file_with_vdf]

/-- C2: `generate_appid` returns the unsigned decimal string of the
CRC-32 of the UTF-8 bytes of the executable path `e` concatenated with
the display name `n` (in that order, no separator), bitwise-ORed with
`0x80000000`; it is a pure total function (so repeated identical calls
agree), and the numeric value is a genuine unsigned 32-bit integer with
the sign bit forced. -/
theorem C2_generate_appid_crc (e n : String) :
    generate_appid n e = Nat.repr (crc32 (strUtf8 e ++ strUtf8 n) ||| 0x80000000) ∧
    generate_appid n e = generate_appid n e ∧
    0x80000000 ≤ crc32 (strUtf8 e ++ strUtf8 n) ||| 0x80000000 ∧
    crc32 (strUtf8 e ++ strUtf8 n) ||| 0x80000000 < 2 ^ 32 := by
  refine ⟨?_, rfl, le_or_sign _, sign_or_lt _ ?_⟩
  · unfold generate_appid
    rw [strUtf8_append]
  · refine crc32_lt ?_
    intro b hb
    rcases List.mem_append.mp hb with h | h
    · exact strUtf8_lt e b h
    · exact strUtf8_lt n b h

/-- C3: inserting an entry into a document whose "shortcuts" value is a
map `m` assigns it the key `str(len(m))` (the stringified current entry
count), and appending `k` entries to an empty document yields the keys
`"0" .. "k-1"` in insertion order, one row per append with no
deduplication (the resulting map has exactly `k` rows). -/
theorem C3_contiguous_indexing :
    (∀ (doc : Doc) (m : List (String × VdfVal)) (entry : VdfVal),
        lookupKey shortcutsKey doc = some (VdfVal.map m) →
        ∃ d, add_entry doc entry = some d ∧
          lookupKey shortcutsKey d
            = some (VdfVal.map (setKey (Nat.repr m.length) entry m)) ∧
          lookupKey (Nat.repr m.length) (setKey (Nat.repr m.length) entry m)
            = some entry) ∧
    (∀ es : List VdfVal, ∃ d m2, append_all emptyDoc es = some d ∧
        lookupKey shortcutsKey d = some (VdfVal.map m2) ∧
        m2.length = es.length ∧
        m2.map Prod.fst = (List.range es.length).map Nat.repr) := by
  constructor
  · intro doc m entry h
    exact ⟨_, by simp [add_entry, h], lookupKey_setKey_self _ _ doc,
      lookupKey_setKey_self _ _ m⟩
  · exact contiguous_keys

/-- C3 witness: the first append to an empty catalogue goes in at key
`"0"`. -/
theorem C3_contiguous_indexing_witness :
    ∃ d, add_entry emptyDoc (VdfVal.int 7) = some d ∧
      lookupKey shortcutsKey d
        = some (VdfVal.map (setKey (Nat.repr 0) (VdfVal.int 7) [])) ∧
      lookupKey (Nat.repr 0) (setKey (Nat.repr 0) (VdfVal.int 7) [])
        = some (VdfVal.int 7) :=
  C3_contiguous_indexing.1 emptyDoc [] (VdfVal.int 7) (by simp [emptyDoc, lookupKey])

/-- C4 counterexample: a file that decodes successfully to a dict
without the "shortcuts" key — e.g. `{"other": 1}` — is NOT returned as
the decoded document: `load_shortcuts_binary` returns it with an empty
"shortcuts" mapping appended, so the claim's "returns the decoded
document" clause fails as stated. -/
theorem C4_counterexample :
    load_shortcuts_binary (LoadInput.decodes [(otherKey, VdfVal.int 1)]) ≠
      Except.ok [(otherKey, VdfVal.int 1)] := by
  simp [load_shortcuts_binary, lookupKey, otherKey, shortcutsKey]

/-- C4 (amended): `load_shortcuts_binary` returns the decoded document
unchanged when it already carries the "shortcuts" key, returns the
decoded document with an empty "shortcuts" mapping appended when it
lacks that key, returns a fresh `{"shortcuts": {}}` when the path does
not exist, and re-raises a decode failure to the caller rather than
silently returning a default. -/
theorem C4_load_or_create :
    (∀ d : Doc, (lookupKey shortcutsKey d).isSome →
        load_shortcuts_binary (LoadInput.decodes d) = Except.ok d) ∧
    (∀ d : Doc, (lookupKey shortcutsKey d).isNone →
        load_shortcuts_binary (LoadInput.decodes d)
          = Except.ok (d ++ [(shortcutsKey, VdfVal.map [])])) ∧
    load_shortcuts_binary LoadInput.missing
      = Except.ok [(shortcutsKey, VdfVal.map [])] ∧
    (∀ msg, load_shortcuts_binary (LoadInput.decodeFails msg) = Except.error msg) := by
  refine ⟨?_, ?_, rfl, fun msg => rfl⟩
  · intro d h
    cases hx : lookupKey shortcutsKey d with
    | none => rw [hx] at h; simp at h
    | some v => simp [load_shortcuts_binary, hx]
  · intro d h
    simp only [Option.isNone_iff_eq_none] at h
    simp [load_shortcuts_binary, h]

/-- C4 witness: both non-error branches at concrete inputs. -/
theorem C4_load_or_create_witness :
    load_shortcuts_binary (LoadInput.decodes emptyDoc) = Except.ok emptyDoc ∧
    load_shortcuts_binary (LoadInput.decodes [])
      = Except.ok ([] ++ [(shortcutsKey, VdfVal.map [])]) :=
  ⟨C4_load_or_create.1 emptyDoc (by simp [emptyDoc, lookupKey]),
   C4_load_or_create.2.1 [] (by simp [lookupKey])⟩

/-- C5: when a file exists at the canonical path,
`atomic_write_file_with_vdf` records a byte-identical copy of it under a
timestamped name in the sibling backup directory, computed from the
state before any mutation of the canonical path (for every writer
outcome); and when the backup copy fails, the write still proceeds and
succeeds — backup failure is never fatal. -/
theorem C5_backup_before_write
    (fs : FileSys) (fileName timestamp : String) (old : List Nat)
    (writer : WriterResult) (newBytes : List Nat)
    (h : fs.canonical = some old) :
    (atomic_write_file_with_vdf fs fileName timestamp true writer).1.backups
        = fs.backups ++ [(bakName fileName timestamp, old)] ∧
    (atomic_write_file_with_vdf fs fileName timestamp false
        (WriterResult.ok newBytes)).1.canonical = some newBytes ∧
    (atomic_write_file_with_vdf fs fileName timestamp false
        (WriterResult.ok newBytes)).2 = none := by
  obtain ⟨can, tmpf, baks⟩ := fs
  simp only [FileSys.canonical] at h
  subst h
  cases writer <;> simp [atomic_write_file_with_vdf]

/-- C5 witness: a concrete two-byte file is backed up under the
timestamped name, and with the backup failing the write still lands. -/
theorem C5_backup_before_write_witness :
    (atomic_write_file_with_vdf ⟨some [1, 2], none, []⟩ ("s.vdf") ("20240101-000000")
        true (WriterResult.ok [3])).1.backups
      = [] ++ [(bakName ("s.vdf") ("20240101-000000"), [1, 2])] ∧
    (atomic_write_file_with_vdf ⟨some [1, 2], none, []⟩ ("s.vdf") ("20240101-000000")
        false (WriterResult.ok [3])).1.canonical = some [3] ∧
    (atomic_write_file_with_vdf ⟨some [1, 2], none, []⟩ ("s.vdf") ("20240101-000000")
        false (WriterResult.ok [3])).2 = none :=
  C5_backup_before_write ⟨some [1, 2], none, []⟩ ("s.vdf") ("20240101-000000")
    [1, 2] (WriterResult.ok [3]) [3] rfl

/-- C8: every catalogue document the system holds carries the top-level
"shortcuts" key — load-or-create establishes it for a missing file and
for decoded data that lacks it, and entry insertion preserves
(re-establishes) it. -/
theorem C8_shortcuts_key_always_present :
    (∀ (inp : LoadInput) (d : Doc), load_shortcuts_binary inp = Except.ok d →
        (lookupKey shortcutsKey d).isSome) ∧
    (∀ (doc : Doc) (entry : VdfVal) (d : Doc), add_entry doc entry = some d →
        (lookupKey shortcutsKey d).isSome) := by
  constructor
  · intro inp d h
    cases inp with
    | missing =>
      simp only [load_shortcuts_binary, Except.ok.injEq] at h
      subst h
      simp [lookupKey]
    | decodes d0 =>
      simp only [load_shortcuts_binary, Except.ok.injEq] at h
      subst h
      cases hx : lookupKey shortcutsKey d0 with
      | none =>
        simp only [hx, Option.isNone_none, if_pos, reduceIte]
        simp [lookupKey_append_self shortcutsKey (VdfVal.map []) d0 hx]
      | some v =>
        simp [hx]
    | decodeFails msg =>
      simp [load_shortcuts_binary] at h
  · intro doc entry d h
    unfold add_entry at h
    split at h
    · obtain rfl : _ = d := Option.some.inj h
      simp [lookupKey_setKey_self]
    · exact absurd h (by simp)
    · obtain rfl : _ = d := Option.some.inj h
      simp [lookupKey_setKey_self]

/-- C8 witness: concrete instances of both conjuncts — loading a missing
file and inserting into an empty catalogue both yield documents carrying
the "shortcuts" key. -/
theorem C8_shortcuts_key_always_present_witness :
    (lookupKey shortcutsKey [(shortcutsKey, VdfVal.map [])]).isSome ∧
    (lookupKey shortcutsKey
        (setKey shortcutsKey (VdfVal.map (setKey (Nat.repr 0) (VdfVal.int 3) []))
          emptyDoc)).isSome :=
  ⟨C8_shortcuts_key_always_present.1 LoadInput.missing [(shortcutsKey, VdfVal.map [])] rfl,
   C8_shortcuts_key_always_present.2 emptyDoc (VdfVal.int 3)
     (setKey shortcutsKey (VdfVal.map (setKey (Nat.repr 0) (VdfVal.int 3) [])) emptyDoc)
     (by simp [add_entry, emptyDoc, lookupKey])⟩

/-- C9: the entry inserted by the add operation has exactly the twelve
fields of main.py lines 494-507 in order — `appid` (the unsigned decimal
string produced by `generate_appid`), `appname`, `exe` (quoted path),
`StartDir` (quoted path), `LaunchOptions` (possibly empty),
the integer flags `IsHidden = 0`, `AllowDesktopConfig = 1`, `OpenVR = 0`,
`Devkit = 0`, `DevkitGameID = ""`, `LastPlayTime = 0` for a new entry,
and `tags` as an empty mapping. (The spec's camelCase field names
`startDir`, `launchOptions`, … are its aliases for these keys.) -/
theorem C9_entry_fields (game_name exe game_path launch_options : String) :
    mapEntries (game_entry game_name exe game_path launch_options) =
      [("appid", VdfVal.str (Nat.repr (crc32 (strUtf8 (exe ++ game_name)) ||| 0x80000000))),
       ("appname", VdfVal.str game_name),
       ("exe", VdfVal.str ("\"" ++ exe ++ "\"")),
       ("StartDir", VdfVal.str ("\"" ++ game_path ++ "\"")),
       ("LaunchOptions", VdfVal.str launch_options),
       ("IsHidden", VdfVal.int 0),
       ("AllowDesktopConfig", VdfVal.int 1),
       ("OpenVR", VdfVal.int 0),
       ("Devkit", VdfVal.int 0),
       ("DevkitGameID", VdfVal.str ("")),
       ("LastPlayTime", VdfVal.int 0),
       ("tags", VdfVal.map [])] ∧
    (∃ v : Nat, generate_appid game_name exe = Nat.repr v) :=
  ⟨rfl, ⟨crc32 (strUtf8 (exe ++ game_name)) ||| 0x80000000, rfl⟩⟩

/-- C10: when loading the existing catalogue raises a decode error, the
add operation does not abort — it continues with a fresh
`{"shortcuts": {}}`, so the resulting document holds only the newly
added entry at key "0"; and the subsequent atomic write replaces the
canonical file with the new bytes while the old (undecodable) content
survives as the timestamped backup copy. -/
theorem C10_decode_failure_overwrites
    (msg : String) (entry : VdfVal) (fs : FileSys)
    (fileName timestamp : String) (old newBytes : List Nat)
    (h : fs.canonical = some old) :
    add_game_doc (LoadInput.decodeFails msg) entry
        = some [(shortcutsKey, VdfVal.map [(Nat.repr 0, entry)])] ∧
    (atomic_write_file_with_vdf fs fileName timestamp true
        (WriterResult.ok newBytes)).1.canonical = some newBytes ∧
    (atomic_write_file_with_vdf fs fileName timestamp true
        (WriterResult.ok newBytes)).1.backups
        = fs.backups ++ [(bakName fileName timestamp, old)] := by
  refine ⟨?_, ?_, ?_⟩
  · simp [add_game_doc, load_shortcuts_binary, add_entry, lookupKey, setKey]
  · obtain ⟨can, tmpf, baks⟩ := fs
    simp only [FileSys.canonical] at h
    subst h
    simp [atomic_write_file_with_vdf]
  · obtain ⟨can, tmpf, baks⟩ := fs
    simp only [FileSys.canonical] at h
    subst h
    simp [atomic_write_file_with_vdf]

/-- C10 witness: concrete decode failure and overwrite. -/
theorem C10_decode_failure_overwrites_witness :
    add_game_doc (LoadInput.decodeFails ("bad vdf")) (VdfVal.int 9)
        = some [(shortcutsKey, VdfVal.map [(Nat.repr 0, VdfVal.int 9)])] ∧
    (atomic_write_file_with_vdf ⟨some [7], none, []⟩ ("s.vdf") ("20240101-000000")
        true (WriterResult.ok [8])).1.canonical = some [8] ∧
    (atomic_write_file_with_vdf ⟨some [7], none, []⟩ ("s.vdf") ("20240101-000000")
        true (WriterResult.ok [8])).1.backups
        = [] ++ [(bakName ("s.vdf") ("20240101-000000"), [7])] :=
  C10_decode_failure_overwrites ("bad vdf") (VdfVal.int 9) ⟨some [7], none, []⟩
    ("s.vdf") ("20240101-000000") [7] [8] rfl

/-- C6: `restart_steam_if_running` is a no-op returning
`performed = false` with zero stop calls, zero start calls and no settle
sleep whenever the client is not running or the restart is disallowed
(per spec §4.5 a declined interactive confirmation is treated
identically to "restart disallowed", captured by `restartDisallowed`);
otherwise it issues exactly one stop call, sleeps the fixed settle
delay, issues exactly one start call, and returns `performed = true`
exactly when at least one of the stop or start commands was dispatched
successfully. -/
theorem C6_coordinate_restart :
    (∀ (variant : String) (probe : Except String RunOut) (p a tty acc : Bool)
        (r1 r2 : Except String Unit) (env : StartEnv),
        is_steam_running variant probe = false →
        restart_steam_if_running variant probe p a tty acc r1 r2 env
          = ((variant, false), ⟨0, 0, []⟩)) ∧
    (∀ (variant : String) (probe : Except String RunOut) (p a tty acc : Bool)
        (r1 r2 : Except String Unit) (env : StartEnv),
        restartDisallowed p a tty acc = true →
        restart_steam_if_running variant probe p a tty acc r1 r2 env
          = ((variant, false), ⟨0, 0, []⟩)) ∧
    (∀ (variant : String) (probe : Except String RunOut) (p a tty acc : Bool)
        (r1 r2 : Except String Unit) (env : StartEnv),
        is_steam_running variant probe = true →
        restartDisallowed p a tty acc = false →
        restart_steam_if_running variant probe p a tty acc r1 r2 env
          = ((variant, stop_steam variant r1 r2 || start_steam variant env),
             ⟨1, 1, [settleDelayMs]⟩)) := by
  refine ⟨?_, ?_, ?_⟩
  · intro variant probe p a tty acc r1 r2 env h
    simp [restart_steam_if_running, h]
  · intro variant probe p a tty acc r1 r2 env h
    cases hr : is_steam_running variant probe <;>
      cases a <;> cases p <;> cases tty <;> cases acc <;>
        simp_all [restart_steam_if_running, restartDisallowed]
  · intro variant probe p a tty acc r1 r2 env h1 h2
    cases a <;> cases p <;> cases tty <;> cases acc <;>
      simp_all [restart_steam_if_running, restartDisallowed]

/-- C6 witness: with the probe raising (client not running) the
coordinator is a no-op, and with a running linux-native client, restart
allowed and no prompt, it performs one stop and one start. -/
theorem C6_coordinate_restart_witness :
    restart_steam_if_running unknownV (Except.error ("probe failed")) false true false false
        (Except.ok ()) (Except.ok ()) ⟨false, false, false, Except.ok (), Except.ok (), none, false⟩
      = ((unknownV, false), ⟨0, 0, []⟩) ∧
    restart_steam_if_running linuxNativeV (Except.ok ⟨"", 0⟩) false true false false
        (Except.ok ()) (Except.ok ())
        ⟨false, false, false, Except.ok (), Except.ok (), some ("/usr/bin/steam"), false⟩
      = ((linuxNativeV,
          stop_steam linuxNativeV (Except.ok ()) (Except.ok ())
            || start_steam linuxNativeV
                ⟨false, false, false, Except.ok (), Except.ok (), some ("/usr/bin/steam"), false⟩),
         ⟨1, 1, [settleDelayMs]⟩) :=
  ⟨C6_coordinate_restart.1 unknownV (Except.error ("probe failed")) false true false false
      (Except.ok ()) (Except.ok ()) ⟨false, false, false, Except.ok (), Except.ok (), none, false⟩
      rfl,
   C6_coordinate_restart.2.2 linuxNativeV (Except.ok ⟨"", 0⟩) false true false false
      (Except.ok ()) (Except.ok ())
      ⟨false, false, false, Except.ok (), Except.ok (), some ("/usr/bin/steam"), false⟩
      (by simp [is_steam_running, linuxNativeV, windowsV]) rfl⟩

/-- C7: the process-control probes never raise to the caller (they are
total functions into `Bool` over every call outcome, the raising
outcomes included): `is_steam_running` returns `false` whenever the
probe subprocess call raises, `stop_steam` returns `false` whenever
either of its kill commands raises, and `start_steam` returns `false`
whenever its launch commands raise. -/
theorem C7_process_control_absorbs_failures :
    (∀ (variant msg : String), is_steam_running variant (Except.error msg) = false) ∧
    (∀ (variant msg : String) (r2 : Except String Unit),
        stop_steam variant (Except.error msg) r2 = false) ∧
    (∀ (r1 : Except String Unit) (msg : String),
        stop_steam linuxFlatpakV r1 (Except.error msg) = false) ∧
    (∀ (variant m1 m2 : String) (e1 e2 e3 : Bool) (ws : Option String) (lsh : Bool),
        start_steam variant ⟨e1, e2, e3, Except.error m1, Except.error m2, ws, lsh⟩
          = false) := by
  refine ⟨fun v msg => rfl, ?_, ?_, ?_⟩
  · intro v msg r2
    unfold stop_steam
    split_ifs <;> simp [exceptOk]
  · intro r1 msg
    unfold stop_steam
    split_ifs with h1 h2 h3
    · simp [linuxFlatpakV, windowsV] at h1
    · cases r1 <;> simp [exceptOk]
    · simp [linuxFlatpakV] at h2
    · simp [linuxFlatpakV] at h2
  · intro v m1 m2 e1 e2 e3 ws lsh
    unfold start_steam
    split_ifs <;> cases ws <;> cases hb : (e1 || e2 || e3) <;> simp [exceptOk]

end NonSteam
